import Mathlib

/-!
Shallow embedding of the model-lifecycle / VRAM-manager core of the
`backend-ai-local` repository (files `src/core/model_manager.py`,
`src/core/vram_manager.py`, `src/core/download_manager.py`,
`src/core/task_router.py`, `src/models/*.py`, `src/inference/*.py`).

Modelling conventions:
* Python floats (timestamps, gigabyte amounts) are embedded as `ℚ`.
* Python's `dict` (which preserves insertion order) is embedded as an
  association list; dict assignment replaces in place or appends.
* `ModelInfo` objects are shared by reference between
  `ModelManager._model_registry` and `VRAMManager._loaded_models`
  (in the Python source `register_model(info)` stores the very object held by
  the registry).  The embedding therefore uses the registry as the object
  store, and the VRAM tracker holds the keys (`tracked`); every tracker
  operation reads and writes the shared object through the registry.
* The execution environment (torch device queries, HuggingFace downloads,
  engine loads) is embedded as an `Env` of response functions, and the
  device-memory state as `Gpu`.  `torch.cuda.memory_allocated` (read by
  `get_vram_usage_gb`) is modelled as `Gpu.usageGb`; a successful engine load
  allocates `Env.fpGb id` gigabytes and unloading a loaded engine frees the
  same amount; `torch.cuda.empty_cache` does not change allocated memory, so
  `clear_gpu_cache` is a no-op on `Gpu`.
* `DM.transfers` counts started physical transfers (`snapshot_download`
  invocations); it is ghost instrumentation mirroring the spec's
  "counting transfer invocations", with no effect on control flow.
-/

namespace BackendAI

/-- TaskType from src/models/enums.py. -/
inductive TaskType
  | text
  | audioTts
  | audioStt
  | image
  | video
  deriving DecidableEq, Repr

/-- ModelState from src/models/enums.py. -/
inductive ModelState
  | downloading
  | onDisk
  | loaded
  | failed
  deriving DecidableEq, Repr

/-- An inference-engine instance (src/inference/base.py): the engine class
resolved from the task type, the model id passed to the constructor, and the
internal loaded flag set by load/unload. -/
structure Engine where
  kind : TaskType
  modelId : String
  loaded : Bool
  deriving DecidableEq, Repr

/-- ModelInfo from src/models/model_info.py. -/
structure ModelInfo where
  model_id : String
  task_type : TaskType
  state : ModelState
  vram_mb : ℚ
  last_used : ℚ
  disk_path : Option String
  engine_instance : Option Engine
  deriving DecidableEq, Repr

/-- ModelInfo.touch: last_used = time.time(), with the current wall-clock
reading passed explicitly. -/
def ModelInfo.touch (info : ModelInfo) (t : ℚ) : ModelInfo :=
  { info with last_used := t }

/-- Device / settings / external-world responses.  `vramThreshold` and
`maxVramGb` come from src/config.py; `vramTotalGb` is what
`get_vram_total_gb()` reports (0 when no CUDA device); `fpGb id` is the
physical VRAM a successful load of model `id` allocates; `vramMbReported id`
is what `engine.get_vram_usage_mb()` returns after a load; `loadOk id` says
whether the (non-video) engine load succeeds; `downloadOk id` says whether
`snapshot_download` for `id` succeeds. -/
structure Env where
  vramTotalGb : ℚ
  vramThreshold : ℚ
  maxVramGb : ℚ
  fpGb : String → ℚ
  vramMbReported : String → ℚ
  loadOk : String → Bool
  downloadOk : String → Bool

/-- Device memory state: gigabytes currently allocated
(torch.cuda.memory_allocated, read by get_vram_usage_gb). -/
structure Gpu where
  usageGb : ℚ
  deriving DecidableEq, Repr

/-- VRAMManager.get_effective_limit_gb. -/
def Env.effectiveLimit (env : Env) : ℚ :=
  if 0 < env.vramTotalGb then env.vramTotalGb * env.vramThreshold
  else env.maxVramGb * env.vramThreshold

/-- DownloadManager state: `cache` holds the safe directory names present
under the cache directory (each directory non-empty), in creation order;
`transfers` is the ghost count of started physical transfers.  The
`_active_downloads` set is always empty between top-level operations of the
single-caller embedding, so it is omitted here; the concurrent behaviour of
`download` is modelled separately below (`ConcState`). -/
structure DM where
  cache : List String
  transfers : Nat
  deriving DecidableEq, Repr

/-- Character-level left-to-right replacement of "/" by "--" (the semantics
of Python str.replace for this pattern, written so that it evaluates). -/
def safeChars : List Char → List Char
  | [] => []
  | c :: rest => if c = '/' then '-' :: '-' :: safeChars rest else c :: safeChars rest

/-- DownloadManager._model_disk_path: safe_name = model_id.replace("/", "--"). -/
def safeName (id : String) : String :=
  ⟨safeChars id.data⟩

/-- Character-level left-to-right non-overlapping replacement of "--" by "/"
(the semantics of Python str.replace for this pattern). -/
def recoverChars : List Char → List Char
  | [] => []
  | '-' :: '-' :: rest => '/' :: recoverChars rest
  | c :: rest => c :: recoverChars rest

/-- The model id list_cached_models recovers from a cache directory name:
entry.name.replace("--", "/"). -/
def recoveredId (n : String) : String :=
  ⟨recoverChars n.data⟩

/-- Model cache directory (settings.model_cache_dir default). -/
def cacheDir : String := "/app/models/"

/-- Full disk path for a model id. -/
def modelDiskPath (id : String) : String :=
  cacheDir ++ safeName id

/-- DownloadManager.is_cached. -/
def DM.isCached (dm : DM) (id : String) : Bool :=
  dm.cache.contains (safeName id)

/-- Errors raised along the load path (src/utils/exceptions.py plus the
engine-level NotImplementedError of VideoEngine.load). -/
inductive LoadErr
  | downloadError (id : String)
  | notImplemented
  | loadError (id : String)
  | vramExhausted (requiredGb availableGb : ℚ)
  deriving DecidableEq, Repr

/-- DownloadManager.download, single-caller path: if cached, return the disk
path with no transfer; otherwise perform the transfer (counted), adding the
directory to the cache on success and raising DownloadError on failure. -/
def DM.download (env : Env) (dm : DM) (id : String) :
    Except LoadErr String × DM :=
  if dm.isCached id then (.ok (modelDiskPath id), dm)
  else
    let dm1 : DM := { dm with transfers := dm.transfers + 1 }
    if env.downloadOk id then
      (.ok (modelDiskPath id), { dm1 with cache := dm1.cache ++ [safeName id] })
    else
      (.error (.downloadError id), dm1)

/-- Combined state of ModelManager: the registry (an insertion-ordered map,
also serving as the store for the ModelInfo objects shared with the VRAM
tracker), the VRAM tracker's key list `tracked`
(VRAMManager._loaded_models keys in insertion order), the download-manager
state, and the device memory. -/
structure Sys where
  registry : List (String × ModelInfo)
  tracked : List String
  dm : DM
  gpu : Gpu
  deriving DecidableEq, Repr

/-- Registry lookup (dict get). -/
def Sys.lookupInfo (s : Sys) (id : String) : Option ModelInfo :=
  (s.registry.find? (fun p => p.1 = id)).map (fun p => p.2)

/-- Registry assignment (dict set: replace in place, or append when new). -/
def Sys.setInfo (s : Sys) (id : String) (info : ModelInfo) : Sys :=
  if s.registry.any (fun p => p.1 = id) then
    { s with registry := s.registry.map (fun p => if p.1 = id then (id, info) else p) }
  else
    { s with registry := s.registry ++ [(id, info)] }

/-- VRAMManager.can_load_model: current usage + required <= effective limit. -/
def Sys.canLoad (env : Env) (s : Sys) (requiredGb : ℚ) : Bool :=
  s.gpu.usageGb + requiredGb ≤ env.effectiveLimit

/-- The dict pop of VRAMManager.unregister_model: remove the id from the
tracker's key list. -/
def Sys.popTracked (s : Sys) (id : String) : Sys :=
  { s with tracked := s.tracked.filter (fun x => x ≠ id) }

/-- The body guarded by `if info and info.engine_instance` in
VRAMManager.unregister_model: call the popped record's engine unload()
(clearing the engine's loaded flag through the shared object in the
registry and, if it was loaded, freeing its VRAM), then clear_gpu_cache()
(a no-op on allocated memory).  The record's `state`, `disk_path` and
`engine_instance` attributes are not modified. -/
def Sys.unloadPopped (env : Env) (s : Sys) (id : String) : Sys :=
  match s.lookupInfo id with
  | some info =>
    match info.engine_instance with
    | some e =>
      let s2 := s.setInfo id { info with engine_instance := some { e with loaded := false } }
      if e.loaded then { s2 with gpu := ⟨s2.gpu.usageGb - env.fpGb e.modelId⟩ } else s2
    | none => s
  | none => s

/-- VRAMManager.unregister_model: pop the id from the tracker (no-op when
untracked), then unload the popped record's engine when it has one. -/
def Sys.unregisterModel (env : Env) (s : Sys) (id : String) : Sys :=
  if s.tracked.contains id then (s.popTracked id).unloadPopped env id else s

/-- VRAMManager.register_model: dict assignment of the (registry-shared)
record under its id. -/
def Sys.registerTracked (s : Sys) (id : String) : Sys :=
  if s.tracked.contains id then s else { s with tracked := s.tracked ++ [id] }

/-- VRAMManager.update_access_time: touch the tracked record (through the
shared object) when present. -/
def Sys.updateAccessTime (s : Sys) (id : String) (t : ℚ) : Sys :=
  if s.tracked.contains id then
    match s.lookupInfo id with
    | some info => s.setInfo id (info.touch t)
    | none => s
  else s

/-- The tracker's values() view: the shared records, in tracker insertion
order. -/
def Sys.trackedInfos (s : Sys) : List ModelInfo :=
  s.tracked.filterMap s.lookupInfo

/-- Comparison used by `sorted(..., key=lambda m: m.last_used)`. -/
def byLastUsed (a b : ModelInfo) : Prop :=
  a.last_used ≤ b.last_used

instance : DecidableRel byLastUsed :=
  fun a b => inferInstanceAs (Decidable (a.last_used ≤ b.last_used))

instance : IsTotal ModelInfo byLastUsed :=
  ⟨fun a b => le_total a.last_used b.last_used⟩

instance : IsTrans ModelInfo byLastUsed :=
  ⟨fun _ _ _ hab hbc => le_trans hab hbc⟩

/-- The order in which evict_lru visits tracked models: the tracker's values,
stably sorted by last_used.  Python's sorted() is a stable sort; so is
`List.insertionSort`, which keeps elements that compare equal in their
original (here: registration) order. -/
def Sys.evictionOrder (s : Sys) : List String :=
  ((s.trackedInfos).insertionSort byLastUsed).map (fun m => m.model_id)

/-- VRAMExhaustedError payload (required_gb, available_gb). -/
structure VRAMErr where
  requiredGb : ℚ
  availableGb : ℚ
  deriving DecidableEq, Repr

/-- The for-loop of VRAMManager.evict_lru over the pre-sorted candidate
list: before each eviction re-check can_load_model and stop early; after
exhausting the candidates, raise VRAMExhaustedError when still unable to
load, with available = effective limit - current usage clamped at 0.
Mutations performed before the error persist, so the state is returned in
both cases. -/
def Sys.evictGo (env : Env) (requiredGb : ℚ) :
    Sys → List String → Sys × Option VRAMErr
  | s, [] =>
    if s.canLoad env requiredGb then (s, none)
    else (s, some ⟨requiredGb, max 0 (env.effectiveLimit - s.gpu.usageGb)⟩)
  | s, mid :: rest =>
    if s.canLoad env requiredGb then (s, none)
    else Sys.evictGo env requiredGb (s.unregisterModel env mid) rest

/-- VRAMManager.evict_lru. -/
def Sys.evictLru (env : Env) (s : Sys) (requiredGb : ℚ) : Sys × Option VRAMErr :=
  Sys.evictGo env requiredGb s s.evictionOrder

/-- VRAMManager.purge_all: unregister every tracked id (snapshot of the key
list), then clear_gpu_cache (no-op on allocated memory). -/
def Sys.vramPurgeAll (env : Env) (s : Sys) : Sys :=
  (s.tracked).foldl (fun s1 id => s1.unregisterModel env id) s

/-- The default ModelInfo constructed at the start of the slow path of
ModelManager.load_model: ModelInfo(model_id, task_type) with the dataclass
defaults (vram 0, last_used = time.time(), no disk path, no engine), then
state set to DOWNLOADING. -/
def freshInfo (id : String) (tt : TaskType) (t : ℚ) : ModelInfo :=
  { model_id := id, task_type := tt, state := .downloading, vram_mb := 0,
    last_used := t, disk_path := none, engine_instance := none }

/-- The engine.load step of ModelManager.load_model and what follows it:
VideoEngine.load always raises NotImplementedError; other engines fail
according to the environment, in which case the record is marked FAILED and
the error propagates; on success the engine (with its loaded flag set, its
footprint allocated on the device) is attached to the record together with
the reported footprint, the record becomes LOADED and touched, and is
registered with the tracker. -/
def Sys.engineLoad (env : Env) (s4 : Sys) (id : String) (tt : TaskType)
    (t : ℚ) (info1 : ModelInfo) : Except LoadErr ModelInfo × Sys :=
  if tt = TaskType.video then
    let infoF := { ((s4.lookupInfo id).getD info1) with state := ModelState.failed }
    (.error .notImplemented, s4.setInfo id infoF)
  else if env.loadOk id then
    let s5 : Sys := { s4 with gpu := ⟨s4.gpu.usageGb + env.fpGb id⟩ }
    let info2 := { ((s5.lookupInfo id).getD info1) with
                   engine_instance := some ⟨tt, id, true⟩,
                   vram_mb := env.vramMbReported id,
                   state := ModelState.loaded,
                   last_used := t }
    let s6 := (s5.setInfo id info2).registerTracked id
    (.ok info2, s6)
  else
    let infoF := { ((s4.lookupInfo id).getD info1) with state := ModelState.failed }
    (.error (.loadError id), s4.setInfo id infoF)

/-- The record as updated right after a successful download: the re-read
registry record (the one written before the download) with its disk path set
and state ON_DISK. -/
def onDiskInfo (s2 : Sys) (id : String) (tt : TaskType) (t : ℚ)
    (diskPath : String) : ModelInfo :=
  { ((s2.lookupInfo id).getD (freshInfo id tt t)) with
    disk_path := some diskPath, state := .onDisk }

/-- The capacity check of ModelManager.load_model: when can_load_model fails
for the required estimate, run evict_lru (whose mutations persist even when
it raises). -/
def admitStep (env : Env) (s3 : Sys) (requiredGb : ℚ) : Sys × Option VRAMErr :=
  if s3.canLoad env requiredGb then (s3, none) else s3.evictLru env requiredGb

/-- The post-download section of ModelManager.load_model: set the disk path
and state ON_DISK on the re-read record, check capacity with the fixed 2 GB
estimate, evict when insufficient (VRAMExhaustedError propagates with the
evictions kept), then perform the engine load. -/
def Sys.finishLoad (env : Env) (s2 : Sys) (id : String) (tt : TaskType)
    (t : ℚ) (diskPath : String) : Except LoadErr ModelInfo × Sys :=
  let info1 := onDiskInfo s2 id tt t diskPath
  let s3 := s2.setInfo id info1
  let ev := admitStep env s3 2
  match ev.2 with
  | some e => (.error (.vramExhausted e.requiredGb e.availableGb), ev.1)
  | none => Sys.engineLoad env ev.1 id tt t info1

/-- The slow path of ModelManager.load_model after the fast-path and
force-reload checks: create the DOWNLOADING record, download outside the
lock (a DownloadError propagates with the record left DOWNLOADING), then
run the post-download section.  Exceptions leave all mutations performed so
far in place, so the state is returned alongside the result. -/
def Sys.loadModelSlow (env : Env) (s : Sys) (id : String) (tt : TaskType)
    (t : ℚ) : Except LoadErr ModelInfo × Sys :=
  let s1 := s.setInfo id (freshInfo id tt t)
  let dres := DM.download env s1.dm id
  let s2 : Sys := { s1 with dm := dres.2 }
  match dres.1 with
  | .error e => (.error e, s2)
  | .ok diskPath => s2.finishLoad env id tt t diskPath

/-- ModelManager.load_model.  `t` is the wall-clock reading used for
time.time() calls made during this operation. -/
def Sys.loadModel (env : Env) (s : Sys) (id : String) (tt : TaskType)
    (forceReload : Bool) (t : ℚ) : Except LoadErr ModelInfo × Sys :=
  match s.lookupInfo id with
  | some ex =>
    if ex.state = ModelState.loaded ∧ forceReload = false then
      let exT := ex.touch t
      let s1 := (s.setInfo id exT).updateAccessTime id t
      (.ok exT, s1)
    else
      let s1 := if ex.state = ModelState.loaded ∧ forceReload = true then
                  s.unregisterModel env id
                else s
      s1.loadModelSlow env id tt t
  | none => s.loadModelSlow env id tt t

/-- ModelManager.purge_all: VRAMManager.purge_all then registry.clear(). -/
def Sys.purgeAll (env : Env) (s : Sys) : Sys :=
  let s1 := s.vramPurgeAll env
  { s1 with registry := [] }

/-- One entry of ModelManager.get_all_model_status.  Registry entries carry
task_type, vram_mb and last_used; cached-only entries carry a path instead
(optional fields model the two dict shapes the Python code produces). -/
structure StatusEntry where
  model_id : String
  task_type : Option TaskType := none
  state : ModelState
  vram_mb : Option ℚ := none
  last_used : Option ℚ := none
  path : Option String := none
  deriving DecidableEq, Repr

/-- DownloadManager.list_cached_models: one ON_DISK entry per directory in
the cache, with the model id recovered by name.replace("--", "/"). -/
def DM.listCachedModels (dm : DM) : List StatusEntry :=
  dm.cache.map (fun n =>
    { model_id := recoveredId n, state := ModelState.onDisk,
      path := some (cacheDir ++ n) })

/-- ModelManager.get_all_model_status: all registry entries, followed by the
cached-only entries whose model id is not a registry key. -/
def Sys.getAllModelStatus (s : Sys) : List StatusEntry :=
  (s.registry.map (fun p =>
    { model_id := p.2.model_id, task_type := some p.2.task_type,
      state := p.2.state, vram_mb := some p.2.vram_mb,
      last_used := some p.2.last_used }))
  ++ (s.dm.listCachedModels.filter
        (fun c => ¬ s.registry.any (fun p => p.1 = c.model_id)))

/-- ModelManager.fetch_model: delegate to DownloadManager.download; no other
component is touched. -/
def Sys.fetchModel (env : Env) (s : Sys) (id : String) :
    Except LoadErr String × Sys :=
  let dres := DM.download env s.dm id
  (dres.1, { s with dm := dres.2 })

/-!
Concurrent model of DownloadManager.download for one model id and two
callers.  Under asyncio, the code a task runs between awaits is atomic, so
download decomposes into atomic segments:

* entry (everything before the first await): the is_cached check, the
  in-flight check, and — for the caller that becomes the fetcher — adding the
  id to `_active_downloads` and starting the transfer on the executor;
* one poll of the waiting loop (`while id in active: await sleep(1)`); when
  the id leaves the active set the waiter returns the expected disk path
  WITHOUT re-checking the cache or the transfer's outcome;
* completion of the executor transfer: on success the snapshot is on disk
  (is_cached becomes true) and the caller returns the path; on failure
  DownloadError propagates; the finally-block removes the id from the
  active set in both cases.

A schedule (which caller's next atomic segment runs) resolves the
nondeterminism; transfer outcomes are an environment function indexed by
transfer number. -/

/-- Outcome one caller of download(id) observes: a returned disk path, or a
propagated DownloadError. -/
inductive DlResult
  | ok (path : String)
  | failed
  deriving DecidableEq, Repr

/-- Where one caller of download(id) stands. -/
inductive CallerPhase
  | start
  | waiting
  | transferring
  | done (r : DlResult)
  deriving DecidableEq, Repr

/-- Shared state of the download manager plus the two callers: whether the
snapshot directory is present and non-empty (`cached`), whether the id is in
`_active_downloads` (`active`), the count of physical transfers started
(`started`), and each caller's phase. -/
structure ConcState where
  cached : Bool
  active : Bool
  started : Nat
  c0 : CallerPhase
  c1 : CallerPhase
  deriving DecidableEq, Repr

/-- One atomic segment of one caller of download(id).  `path` abbreviates the
result str(self._model_disk_path(model_id)). -/
def phaseStep (outcomes : Nat → Bool) (st : ConcState) (p : CallerPhase)
    (path : String) : ConcState × CallerPhase :=
  match p with
  | .start =>
    if st.cached then (st, .done (DlResult.ok path))
    else if st.active then (st, .waiting)
    else ({ st with active := true, started := st.started + 1 }, .transferring)
  | .waiting =>
    if st.active then (st, .waiting) else (st, .done (DlResult.ok path))
  | .transferring =>
    if outcomes (st.started - 1) then
      ({ st with cached := true, active := false }, .done (DlResult.ok path))
    else
      ({ st with active := false }, .done DlResult.failed)
  | .done r => (st, .done r)

/-- Advance the scheduled caller by one atomic segment (false selects caller
0, true selects caller 1). -/
def concStep (outcomes : Nat → Bool) (st : ConcState) (who : Bool) : ConcState :=
  if who then
    let r := phaseStep outcomes st st.c1 (modelDiskPath "m")
    { r.1 with c1 := r.2 }
  else
    let r := phaseStep outcomes st st.c0 (modelDiskPath "m")
    { r.1 with c0 := r.2 }

/-- Run a schedule from the state in which both callers have just invoked
download(id) and the id is not yet on disk nor in flight. -/
def concRun (outcomes : Nat → Bool) (sched : List Bool) : ConcState :=
  sched.foldl (concStep outcomes)
    { cached := false, active := false, started := 0, c0 := .start, c1 := .start }

/-- Both callers have returned. -/
def ConcState.bothDone (st : ConcState) : Prop :=
  (∃ r, st.c0 = .done r) ∧ (∃ r, st.c1 = .done r)

/-- Propagated exceptions compare for equality (used only in statements). -/
instance {e a : Type} [DecidableEq e] [DecidableEq a] :
    DecidableEq (Except e a) := fun x y =>
  match x, y with
  | .ok v, .ok w =>
    if h : v = w then .isTrue (by rw [h])
    else .isFalse (fun hh => h (by injection hh))
  | .error v, .error w =>
    if h : v = w then .isTrue (by rw [h])
    else .isFalse (fun hh => h (by injection hh))
  | .ok _, .error _ => .isFalse (fun hh => by injection hh)
  | .error _, .ok _ => .isFalse (fun hh => by injection hh)

/-!
Concrete scenarios used by counterexamples and witnesses.
-/

/-- Folding unregister_model over a list of ids (the mutation trail evict_lru
and purge_all leave behind). -/
def evictIds (env : Env) (s : Sys) (ids : List String) : Sys :=
  ids.foldl (fun s1 id => s1.unregisterModel env id) s

/-- An 8 GB device at the default 0.9 threshold; model "m1" physically
occupies 6 GB when loaded, every other model 2 GB; all downloads and loads
succeed. -/
def env1 : Env :=
  { vramTotalGb := 8, vramThreshold := 9/10, maxVramGb := 8,
    fpGb := fun id => if id = "m1" then 6 else 2,
    vramMbReported := fun _ => 1000,
    loadOk := fun _ => true, downloadOk := fun _ => true }

/-- A freshly constructed ModelManager: empty registry, empty tracker, empty
disk cache, nothing allocated. -/
def s0 : Sys := { registry := [], tracked := [], dm := ⟨[], 0⟩, gpu := ⟨0⟩ }

/-- State after load_model("m1", TEXT): m1 LOADED and tracked, 6 GB in use. -/
def sA : Sys := (s0.loadModel env1 "m1" .text false 1).2

/-- State after a further load_model("m2", TEXT): admitting m2 needed the
eviction of m1 (6 + 2 > 7.2). -/
def sB : Sys := (sA.loadModel env1 "m2" .text false 2).2

/-- A LOADED tracked record with the given id, last_used 100 and a loaded
engine (used for the tie-break counterexample). -/
def infoT (id : String) : ModelInfo :=
  { model_id := id, task_type := .text, state := .loaded, vram_mb := 3000,
    last_used := 100, disk_path := some (modelDiskPath id),
    engine_instance := some ⟨.text, id, true⟩ }

/-- Environment for the tie-break counterexample: 8 GB device, 0.9 threshold,
every model occupies 3 GB. -/
def env4 : Env :=
  { vramTotalGb := 8, vramThreshold := 9/10, maxVramGb := 8,
    fpGb := fun _ => 3, vramMbReported := fun _ => 3000,
    loadOk := fun _ => true, downloadOk := fun _ => true }

/-- Tracker holding "b" (registered first) and "a" (registered second), both
with last_used 100, with 6 GB in use. -/
def s4 : Sys :=
  { registry := [("b", infoT "b"), ("a", infoT "a")], tracked := ["b", "a"],
    dm := ⟨[], 0⟩, gpu := ⟨6⟩ }

/-- A LOADED tracked record with chosen last_used and footprint. -/
def infoAB (id : String) (lu fp : ℚ) : ModelInfo :=
  { model_id := id, task_type := .text, state := .loaded, vram_mb := fp * 1000,
    last_used := lu, disk_path := some (modelDiskPath id),
    engine_instance := some ⟨.text, id, true⟩ }

/-- Environment for the LRU scenario of the spec: 8 GB device, 0.9 threshold;
A occupies 6 GB, B occupies 1 GB. -/
def envAB : Env :=
  { vramTotalGb := 8, vramThreshold := 9/10, maxVramGb := 8,
    fpGb := fun id => if id = "A" then 6 else 1,
    vramMbReported := fun _ => 0,
    loadOk := fun _ => true, downloadOk := fun _ => true }

/-- A (last_used 100, 6 GB) and B (last_used 200, 1 GB) both loaded, 7 GB in
use: a 2 GB request can only be satisfied by releasing A. -/
def sAB : Sys :=
  { registry := [("A", infoAB "A" 100 6), ("B", infoAB "B" 200 1)],
    tracked := ["A", "B"], dm := ⟨[], 0⟩, gpu := ⟨7⟩ }

/-- A state whose disk cache holds one model that the registry has never
seen, with one model loaded and tracked. -/
def sC3 : Sys :=
  { registry := [("m1", infoAB "m1" 5 2)], tracked := ["m1"],
    dm := ⟨["org--model", "m1"], 2⟩, gpu := ⟨2⟩ }

/-- A 1 GB device at the default threshold: the fixed 2 GB estimate can never
be admitted, so every load request exhausts capacity at once. -/
def envTiny : Env :=
  { vramTotalGb := 1, vramThreshold := 9/10, maxVramGb := 8,
    fpGb := fun _ => 1, vramMbReported := fun _ => 100,
    loadOk := fun _ => true, downloadOk := fun _ => true }

/-- env1 with every engine load failing (the reload-failure witness). -/
def env1bad : Env :=
  { env1 with loadOk := fun _ => false }

/-- Mutual-exclusion invariant of the concurrent download: a caller is mid
transfer only while the id is marked in flight, and never both callers at
once. -/
def InvA (st : ConcState) : Prop :=
  (st.c0 = CallerPhase.transferring → st.active = true) ∧
  (st.c1 = CallerPhase.transferring → st.active = true) ∧
  ¬(st.c0 = CallerPhase.transferring ∧ st.c1 = CallerPhase.transferring)

/-- Transfer-count invariant of the concurrent download when every transfer
succeeds, starting from an uncached, idle state: at most one transfer ever
starts, and any caller that has begun waiting or has returned implies the
single transfer was started. -/
def InvJ (st : ConcState) : Prop :=
  st.started ≤ 1 ∧
  (st.started = 1 → st.cached = true ∨ st.active = true) ∧
  (st.cached = true → st.started = 1) ∧
  (st.active = true → st.started = 1) ∧
  (st.c0 = CallerPhase.transferring → st.active = true) ∧
  (st.c1 = CallerPhase.transferring → st.active = true) ∧
  (∀ r, st.c0 = CallerPhase.done r → st.started = 1) ∧
  (∀ r, st.c1 = CallerPhase.done r → st.started = 1) ∧
  (st.c0 = CallerPhase.waiting → st.started = 1) ∧
  (st.c1 = CallerPhase.waiting → st.started = 1) ∧
  ¬(st.c0 = CallerPhase.transferring ∧ st.c1 = CallerPhase.transferring)

/-!
Lemmas about the registry map.
-/

theorem find_replaceKey_self (id : String) (v : ModelInfo) :
    ∀ (l : List (String × ModelInfo)), l.any (fun p => p.1 = id) = true →
      (l.map (fun p => if p.1 = id then (id, v) else p)).find?
        (fun p => p.1 = id) = some (id, v) := by
  intro l
  induction l with
  | nil => simp
  | cons p rest ih =>
    by_cases hp : p.1 = id
    · intro _
      simp [List.find?, hp]
    · intro h
      simp only [List.any_cons, Bool.or_eq_true] at h
      rcases h with h | h
      · simp [hp] at h
      · simp only [List.map_cons, if_neg hp, List.find?]
        have : (decide (p.1 = id)) = false := by simp [hp]
        rw [this]
        exact ih h

theorem find_append_single_self (id : String) (v : ModelInfo)
    (l : List (String × ModelInfo)) (h : l.any (fun p => p.1 = id) = false) :
    (l ++ [(id, v)]).find? (fun p => p.1 = id) = some (id, v) := by
  induction l with
  | nil => simp
  | cons p rest ih =>
    simp only [List.any_cons, Bool.or_eq_false_iff] at h
    simp only [List.cons_append, List.find?, h.1]
    exact ih h.2

theorem lookupInfo_setInfo_self (s : Sys) (id : String) (v : ModelInfo) :
    (s.setInfo id v).lookupInfo id = some v := by
  unfold Sys.setInfo Sys.lookupInfo
  by_cases h : s.registry.any (fun p => p.1 = id)
  · simp [h, find_replaceKey_self id v s.registry h]
  · simp only [Bool.not_eq_true] at h
    simp [h, find_append_single_self id v s.registry h]

theorem find_replaceKey_ne (id j : String) (v : ModelInfo) (hne : j ≠ id) :
    ∀ (l : List (String × ModelInfo)),
      (l.map (fun p => if p.1 = id then (id, v) else p)).find?
        (fun p => p.1 = j) = l.find? (fun p => p.1 = j) := by
  intro l
  induction l with
  | nil => simp
  | cons p rest ih =>
    by_cases hp : p.1 = id
    · have hj : ¬ ((id : String) = j) := fun hh => hne hh.symm
      have hpj : ¬ (p.1 = j) := by
        intro hh; exact hj (hp ▸ hh)
      simp only [List.map_cons, if_pos hp, List.find?]
      have h1 : (decide ((id, v).1 = j)) = false := by simp [hj]
      have h2 : (decide (p.1 = j)) = false := by simp [hpj]
      rw [h1, h2]
      exact ih
    · simp only [List.map_cons, if_neg hp, List.find?]
      by_cases hpj : p.1 = j
      · simp [hpj]
      · have h2 : (decide (p.1 = j)) = false := by simp [hpj]
        rw [h2]
        exact ih

theorem lookupInfo_setInfo_ne (s : Sys) (id j : String) (v : ModelInfo)
    (hne : j ≠ id) : (s.setInfo id v).lookupInfo j = s.lookupInfo j := by
  unfold Sys.setInfo Sys.lookupInfo
  by_cases h : s.registry.any (fun p => p.1 = id)
  · simp [h, find_replaceKey_ne id j v hne s.registry]
  · simp only [Bool.not_eq_true] at h
    simp only [h, Bool.false_eq_true, if_false, List.find?_append]
    have hij : (decide ((id : String) = j)) = false := by
      simp only [decide_eq_false_iff_not]
      intro hh
      exact hne hh.symm
    have hj : ((List.find? (fun p => decide (p.1 = j)) [(id, v)])) = none := by
      simp only [List.find?, hij]
    rw [hj]
    simp

theorem setInfo_tracked (s : Sys) (id : String) (v : ModelInfo) :
    (s.setInfo id v).tracked = s.tracked := by
  unfold Sys.setInfo
  split <;> rfl

theorem setInfo_dm (s : Sys) (id : String) (v : ModelInfo) :
    (s.setInfo id v).dm = s.dm := by
  unfold Sys.setInfo
  split <;> rfl

theorem setInfo_gpu (s : Sys) (id : String) (v : ModelInfo) :
    (s.setInfo id v).gpu = s.gpu := by
  unfold Sys.setInfo
  split <;> rfl

/-!
Lemmas about the tracker operations.
-/

theorem popTracked_lookup (s : Sys) (id j : String) :
    (s.popTracked id).lookupInfo j = s.lookupInfo j := rfl

theorem popTracked_dm (s : Sys) (id : String) :
    (s.popTracked id).dm = s.dm := rfl

theorem popTracked_gpu (s : Sys) (id : String) :
    (s.popTracked id).gpu = s.gpu := rfl

theorem unloadPopped_tracked (env : Env) (s : Sys) (id : String) :
    (s.unloadPopped env id).tracked = s.tracked := by
  unfold Sys.unloadPopped
  cases hl : s.lookupInfo id with
  | none => simp only [hl]
  | some info =>
    simp only [hl]
    cases he : info.engine_instance with
    | none => simp only [he]
    | some e =>
      simp only [he]
      by_cases hld : e.loaded
      · simp [hld, setInfo_tracked]
      · simp [hld, setInfo_tracked]

theorem unloadPopped_dm (env : Env) (s : Sys) (id : String) :
    (s.unloadPopped env id).dm = s.dm := by
  unfold Sys.unloadPopped
  cases hl : s.lookupInfo id with
  | none => simp only [hl]
  | some info =>
    simp only [hl]
    cases he : info.engine_instance with
    | none => simp only [he]
    | some e =>
      simp only [he]
      by_cases hld : e.loaded
      · simp [hld, setInfo_dm]
      · simp [hld, setInfo_dm]

theorem unloadPopped_lookup_ne (env : Env) (s : Sys) (id j : String)
    (hne : j ≠ id) :
    (s.unloadPopped env id).lookupInfo j = s.lookupInfo j := by
  unfold Sys.unloadPopped
  cases hl : s.lookupInfo id with
  | none => simp only [hl]
  | some info =>
    simp only [hl]
    cases he : info.engine_instance with
    | none => simp only [he]
    | some e =>
      simp only [he]
      by_cases hld : e.loaded
      · simpa [hld] using lookupInfo_setInfo_ne s id j _ hne
      · simpa [hld] using lookupInfo_setInfo_ne s id j _ hne

theorem unloadPopped_lookup_engine_none (env : Env) (s : Sys) (id : String)
    (i : ModelInfo) (hl : s.lookupInfo id = some i)
    (he : i.engine_instance = none) :
    (s.unloadPopped env id).lookupInfo id = some i := by
  unfold Sys.unloadPopped
  simp only [hl, he]

theorem unloadPopped_gpu_le (env : Env) (s : Sys) (id : String)
    (hfp : ∀ x, 0 ≤ env.fpGb x) :
    (s.unloadPopped env id).gpu.usageGb ≤ s.gpu.usageGb := by
  unfold Sys.unloadPopped
  cases hl : s.lookupInfo id with
  | none => simp only [hl]; exact le_refl _
  | some info =>
    simp only [hl]
    cases he : info.engine_instance with
    | none => simp only [he]; exact le_refl _
    | some e =>
      simp only [he]
      by_cases hld : e.loaded
      · simp only [hld, if_true, setInfo_gpu]
        have hh := hfp e.modelId
        linarith
      · simp only [hld, Bool.false_eq_true, if_false, setInfo_gpu]
        exact le_refl _

theorem unregister_tracked (env : Env) (s : Sys) (id : String) :
    (s.unregisterModel env id).tracked = s.tracked.filter (fun x => x ≠ id) := by
  unfold Sys.unregisterModel
  by_cases h : s.tracked.contains id
  · rw [if_pos h, unloadPopped_tracked]
    rfl
  · rw [if_neg h]
    have hm : id ∉ s.tracked := by
      intro hmem
      exact h (List.elem_eq_true_of_mem hmem)
    have hall : ∀ x ∈ s.tracked, (decide (x ≠ id)) = true := by
      intro x hx
      simp only [decide_eq_true_eq]
      intro hxe
      exact hm (hxe ▸ hx)
    exact (List.filter_eq_self.mpr hall).symm

theorem unregister_dm (env : Env) (s : Sys) (id : String) :
    (s.unregisterModel env id).dm = s.dm := by
  unfold Sys.unregisterModel
  by_cases h : s.tracked.contains id
  · rw [if_pos h, unloadPopped_dm, popTracked_dm]
  · rw [if_neg h]

theorem unregister_lookup_ne (env : Env) (s : Sys) (id j : String)
    (hne : j ≠ id) :
    (s.unregisterModel env id).lookupInfo j = s.lookupInfo j := by
  unfold Sys.unregisterModel
  by_cases h : s.tracked.contains id
  · rw [if_pos h, unloadPopped_lookup_ne env _ id j hne, popTracked_lookup]
  · rw [if_neg h]

theorem unregister_lookup_engine_none (env : Env) (s : Sys) (id : String)
    (i : ModelInfo) (hl : s.lookupInfo id = some i)
    (he : i.engine_instance = none) :
    (s.unregisterModel env id).lookupInfo id = some i := by
  unfold Sys.unregisterModel
  by_cases h : s.tracked.contains id
  · rw [if_pos h]
    exact unloadPopped_lookup_engine_none env _ id i hl he
  · rw [if_neg h]
    exact hl

theorem unregister_not_tracked_self (env : Env) (s : Sys) (id : String) :
    id ∉ (s.unregisterModel env id).tracked := by
  rw [unregister_tracked]
  intro hmem
  have := List.of_mem_filter hmem
  simp at this

theorem unregister_tracked_sublist (env : Env) (s : Sys) (id : String) :
    (s.unregisterModel env id).tracked.Sublist s.tracked := by
  rw [unregister_tracked]
  exact List.filter_sublist s.tracked

theorem unregister_not_tracked_mono (env : Env) (s : Sys) (id x : String)
    (h : x ∉ s.tracked) : x ∉ (s.unregisterModel env id).tracked := by
  intro hmem
  exact h ((unregister_tracked_sublist env s id).subset hmem)

theorem unregister_gpu_le (env : Env) (s : Sys) (id : String)
    (hfp : ∀ x, 0 ≤ env.fpGb x) :
    (s.unregisterModel env id).gpu.usageGb ≤ s.gpu.usageGb := by
  unfold Sys.unregisterModel
  by_cases h : s.tracked.contains id
  · rw [if_pos h]
    have hle := unloadPopped_gpu_le env (s.popTracked id) id hfp
    rw [popTracked_gpu] at hle
    exact hle
  · rw [if_neg h]

theorem unregister_preserves_engine_none (env : Env) (s : Sys) (mid x : String)
    (i : ModelInfo) (hl : s.lookupInfo x = some i)
    (he : i.engine_instance = none) :
    (s.unregisterModel env mid).lookupInfo x = some i := by
  by_cases hmx : x = mid
  · subst hmx
    exact unregister_lookup_engine_none env s x i hl he
  · rw [unregister_lookup_ne env s mid x hmx]
    exact hl

/-!
Lemmas about the eviction loop.
-/

theorem evictIds_nil (env : Env) (s : Sys) : evictIds env s [] = s := rfl

theorem evictIds_cons (env : Env) (s : Sys) (mid : String) (ids : List String) :
    evictIds env s (mid :: ids) = evictIds env (s.unregisterModel env mid) ids := rfl

theorem evictIds_append (env : Env) (s : Sys) (l1 l2 : List String) :
    evictIds env s (l1 ++ l2) = evictIds env (evictIds env s l1) l2 :=
  List.foldl_append _ _ _ _

theorem evictIds_dm (env : Env) :
    ∀ (ids : List String) (s : Sys), (evictIds env s ids).dm = s.dm := by
  intro ids
  induction ids with
  | nil => intro s; rfl
  | cons mid rest ih =>
    intro s
    rw [evictIds_cons, ih, unregister_dm]

theorem evictIds_gpu_le (env : Env) (hfp : ∀ x, 0 ≤ env.fpGb x) :
    ∀ (ids : List String) (s : Sys),
      (evictIds env s ids).gpu.usageGb ≤ s.gpu.usageGb := by
  intro ids
  induction ids with
  | nil => intro s; exact le_refl _
  | cons mid rest ih =>
    intro s
    rw [evictIds_cons]
    exact le_trans (ih _) (unregister_gpu_le env s mid hfp)

theorem evictIds_tracked_sublist (env : Env) :
    ∀ (ids : List String) (s : Sys),
      (evictIds env s ids).tracked.Sublist s.tracked := by
  intro ids
  induction ids with
  | nil => intro s; exact List.Sublist.refl _
  | cons mid rest ih =>
    intro s
    rw [evictIds_cons]
    exact List.Sublist.trans (ih _) (unregister_tracked_sublist env s mid)

theorem evictIds_tracked_empty (env : Env) :
    ∀ (ids : List String) (s : Sys), (∀ x ∈ s.tracked, x ∈ ids) →
      (evictIds env s ids).tracked = [] := by
  intro ids
  induction ids with
  | nil =>
    intro s h
    exact List.eq_nil_iff_forall_not_mem.mpr
      (fun x hx => absurd (h x hx) (List.not_mem_nil x))
  | cons mid rest ih =>
    intro s h
    rw [evictIds_cons]
    apply ih
    intro x hx
    have hxs : x ∈ s.tracked := (unregister_tracked_sublist env s mid).subset hx
    have hxne : x ≠ mid := by
      intro hxe
      subst hxe
      exact unregister_not_tracked_self env s x hx
    rcases List.mem_cons.mp (h x hxs) with h1 | h1
    · exact absurd h1 hxne
    · exact h1

theorem evictGo_dm (env : Env) (req : ℚ) :
    ∀ (ids : List String) (s : Sys),
      (Sys.evictGo env req s ids).1.dm = s.dm := by
  intro ids
  induction ids with
  | nil =>
    intro s
    simp only [Sys.evictGo]
    split <;> rfl
  | cons mid rest ih =>
    intro s
    simp only [Sys.evictGo]
    by_cases h : s.canLoad env req
    · rw [if_pos h]
    · rw [if_neg h, ih, unregister_dm]

theorem evictGo_tracked_sublist (env : Env) (req : ℚ) :
    ∀ (ids : List String) (s : Sys),
      (Sys.evictGo env req s ids).1.tracked.Sublist s.tracked := by
  intro ids
  induction ids with
  | nil =>
    intro s
    simp only [Sys.evictGo]
    split <;> exact List.Sublist.refl _
  | cons mid rest ih =>
    intro s
    simp only [Sys.evictGo]
    by_cases h : s.canLoad env req
    · rw [if_pos h]
    · rw [if_neg h]
      exact List.Sublist.trans (ih _) (unregister_tracked_sublist env s mid)

theorem evictGo_not_tracked_mono (env : Env) (req : ℚ) (ids : List String)
    (s : Sys) (x : String) (h : x ∉ s.tracked) :
    x ∉ (Sys.evictGo env req s ids).1.tracked := by
  intro hmem
  exact h ((evictGo_tracked_sublist env req ids s).subset hmem)

theorem evictGo_lookup_engine_none (env : Env) (req : ℚ) :
    ∀ (ids : List String) (s : Sys) (x : String) (i : ModelInfo),
      s.lookupInfo x = some i → i.engine_instance = none →
      (Sys.evictGo env req s ids).1.lookupInfo x = some i := by
  intro ids
  induction ids with
  | nil =>
    intro s x i hl he
    simp only [Sys.evictGo]
    split <;> exact hl
  | cons mid rest ih =>
    intro s x i hl he
    simp only [Sys.evictGo]
    by_cases h : s.canLoad env req
    · rw [if_pos h]; exact hl
    · rw [if_neg h]
      exact ih _ x i (unregister_preserves_engine_none env s mid x i hl he) he

theorem evictGo_error_not_tracked (env : Env) (req : ℚ) :
    ∀ (ids : List String) (s : Sys) (e : VRAMErr),
      (Sys.evictGo env req s ids).2 = some e →
      ∀ x ∈ ids, x ∉ (Sys.evictGo env req s ids).1.tracked := by
  intro ids
  induction ids with
  | nil =>
    intro s e _ x hx
    exact absurd hx (List.not_mem_nil x)
  | cons mid rest ih =>
    intro s e herr x hx
    simp only [Sys.evictGo] at herr ⊢
    by_cases h : s.canLoad env req
    · rw [if_pos h] at herr
      exact absurd herr (by simp)
    · rw [if_neg h] at herr ⊢
      rcases List.mem_cons.mp hx with hx1 | hx1
      · subst hx1
        exact evictGo_not_tracked_mono env req rest _ x
          (unregister_not_tracked_self env s x)
      · exact ih _ e herr x hx1

theorem evictGo_error_val (env : Env) (req : ℚ) :
    ∀ (ids : List String) (s : Sys) (e : VRAMErr),
      (Sys.evictGo env req s ids).2 = some e →
      e = ⟨req, max 0 (env.effectiveLimit - (Sys.evictGo env req s ids).1.gpu.usageGb)⟩ := by
  intro ids
  induction ids with
  | nil =>
    intro s e herr
    simp only [Sys.evictGo] at herr ⊢
    by_cases h : s.canLoad env req
    · rw [if_pos h] at herr
      exact absurd herr (by simp)
    · rw [if_neg h] at herr ⊢
      simp only [Option.some.injEq] at herr
      exact herr.symm
  | cons mid rest ih =>
    intro s e herr
    simp only [Sys.evictGo] at herr ⊢
    by_cases h : s.canLoad env req
    · rw [if_pos h] at herr
      exact absurd herr (by simp)
    · rw [if_neg h] at herr ⊢
      exact ih _ e herr

theorem evictGo_spec (env : Env) (req : ℚ) :
    ∀ (ids : List String) (s : Sys),
      ∃ k, k ≤ ids.length ∧
        (Sys.evictGo env req s ids).1 = evictIds env s (ids.take k) ∧
        (∀ j, j < k → (evictIds env s (ids.take j)).canLoad env req = false) ∧
        ((Sys.evictGo env req s ids).2 = none ↔
          ((Sys.evictGo env req s ids).1.canLoad env req = true)) ∧
        ((Sys.evictGo env req s ids).2 ≠ none → k = ids.length) := by
  intro ids
  induction ids with
  | nil =>
    intro s
    refine ⟨0, Nat.le_refl _, ?_, fun j hj => absurd hj (Nat.not_lt_zero j), ?_, fun _ => rfl⟩
    · simp only [Sys.evictGo]
      split <;> rfl
    simp only [Sys.evictGo]
    by_cases h : s.canLoad env req
    · rw [if_pos h]
      simp [h]
    · rw [if_neg h]
      simp only [Bool.not_eq_true] at h
      simp [h]
  | cons mid rest ih =>
    intro s
    by_cases h : s.canLoad env req
    · refine ⟨0, Nat.zero_le _, ?_, fun j hj => absurd hj (Nat.not_lt_zero j), ?_, ?_⟩
      · simp only [Sys.evictGo]
        rw [if_pos h]
        rfl
      · simp only [Sys.evictGo]
        rw [if_pos h]
        simp [h]
      · simp only [Sys.evictGo]
        rw [if_pos h]
        simp
    · rcases ih (s.unregisterModel env mid) with ⟨k, hk, hst, hstop, hiff, herrk⟩
      refine ⟨k + 1, Nat.succ_le_succ hk, ?_, ?_, ?_, ?_⟩
      · simp only [Sys.evictGo]
        rw [if_neg h, List.take_succ_cons, evictIds_cons]
        exact hst
      · intro j hj
        cases j with
        | zero =>
          simp only [List.take_zero, evictIds_nil]
          simp only [Bool.not_eq_true] at h
          exact h
        | succ j1 =>
          rw [List.take_succ_cons, evictIds_cons]
          exact hstop j1 (Nat.lt_of_succ_lt_succ hj)
      · simp only [Sys.evictGo]
        rw [if_neg h]
        exact hiff
      · simp only [Sys.evictGo]
        rw [if_neg h]
        intro hne
        simp only [List.length_cons]
        exact congrArg (· + 1) (herrk hne)

/-!
Lemmas about access refresh, registration and the eviction order.
-/

theorem updateAccess_tracked (s : Sys) (id : String) (t : ℚ) :
    (s.updateAccessTime id t).tracked = s.tracked := by
  unfold Sys.updateAccessTime
  split
  · split
    · exact setInfo_tracked s id _
    · rfl
  · rfl

theorem updateAccess_dm (s : Sys) (id : String) (t : ℚ) :
    (s.updateAccessTime id t).dm = s.dm := by
  unfold Sys.updateAccessTime
  split
  · split
    · exact setInfo_dm s id _
    · rfl
  · rfl

theorem updateAccess_gpu (s : Sys) (id : String) (t : ℚ) :
    (s.updateAccessTime id t).gpu = s.gpu := by
  unfold Sys.updateAccessTime
  split
  · split
    · exact setInfo_gpu s id _
    · rfl
  · rfl

theorem registerTracked_registry (s : Sys) (id : String) :
    (s.registerTracked id).registry = s.registry := by
  unfold Sys.registerTracked
  split <;> rfl

theorem registerTracked_dm (s : Sys) (id : String) :
    (s.registerTracked id).dm = s.dm := by
  unfold Sys.registerTracked
  split <;> rfl

theorem registerTracked_gpu (s : Sys) (id : String) :
    (s.registerTracked id).gpu = s.gpu := by
  unfold Sys.registerTracked
  split <;> rfl

theorem mem_evictionOrder (s : Sys) (id : String) (i : ModelInfo)
    (hmem : id ∈ s.tracked) (hl : s.lookupInfo id = some i)
    (hid : i.model_id = id) : id ∈ s.evictionOrder := by
  unfold Sys.evictionOrder
  have h1 : i ∈ s.trackedInfos := List.mem_filterMap.mpr ⟨id, hmem, hl⟩
  have h2 : i ∈ (s.trackedInfos).insertionSort byLastUsed :=
    (List.perm_insertionSort byLastUsed s.trackedInfos).mem_iff.mpr h1
  have h3 := List.mem_map_of_mem (fun m => m.model_id) h2
  simp only at h3
  rw [hid] at h3
  exact h3

theorem evictionOrder_sorted (s : Sys) :
    ((s.trackedInfos).insertionSort byLastUsed).Pairwise
      (fun a b => a.last_used ≤ b.last_used) :=
  List.sorted_insertionSort byLastUsed s.trackedInfos

/-!
Lemmas about structure updates, the download step and the slow load path.
-/

theorem lookup_withDm (s : Sys) (d : DM) (j : String) :
    Sys.lookupInfo { s with dm := d } j = s.lookupInfo j := rfl

theorem tracked_withDm (s : Sys) (d : DM) :
    Sys.tracked { s with dm := d } = s.tracked := rfl

theorem gpu_withDm (s : Sys) (d : DM) :
    Sys.gpu { s with dm := d } = s.gpu := rfl

theorem canLoad_withDm (s : Sys) (d : DM) (env : Env) (r : ℚ) :
    Sys.canLoad env { s with dm := d } r = s.canLoad env r := rfl

theorem canLoad_setInfo (env : Env) (s : Sys) (id : String) (v : ModelInfo)
    (r : ℚ) : (s.setInfo id v).canLoad env r = s.canLoad env r := by
  unfold Sys.canLoad
  rw [setInfo_gpu]

theorem download_error_shape (env : Env) (dm : DM) (id : String)
    (e : LoadErr) (h : (DM.download env dm id).1 = .error e) :
    e = .downloadError id := by
  unfold DM.download at h
  by_cases hc : dm.isCached id
  · rw [if_pos hc] at h
    exact absurd h (by simp)
  · rw [if_neg hc] at h
    by_cases hd : env.downloadOk id
    · simp only [hd, if_true] at h
      exact absurd h (by simp)
    · simp only [hd, Bool.false_eq_true, if_false, Except.error.injEq] at h
      exact h.symm

theorem download_ok_shape (env : Env) (dm : DM) (id : String)
    (p : String) (h : (DM.download env dm id).1 = .ok p) :
    p = modelDiskPath id := by
  unfold DM.download at h
  by_cases hc : dm.isCached id
  · rw [if_pos hc] at h
    simp only [Except.ok.injEq] at h
    exact h.symm
  · rw [if_neg hc] at h
    by_cases hd : env.downloadOk id
    · simp only [hd, if_true, Except.ok.injEq] at h
      exact h.symm
    · simp only [hd, Bool.false_eq_true, if_false] at h
      exact absurd h (by simp)

theorem download_dm_cases (env : Env) (dm : DM) (id : String) :
    (DM.download env dm id).2 = dm ∨
    (DM.download env dm id).2.transfers = dm.transfers + 1 := by
  unfold DM.download
  by_cases hc : dm.isCached id
  · rw [if_pos hc]
    exact Or.inl rfl
  · rw [if_neg hc]
    by_cases hd : env.downloadOk id
    · simp only [hd, if_true]
      simp
    · simp only [hd, Bool.false_eq_true, if_false]
      simp

theorem evictGo_gpu_le (env : Env) (req : ℚ) (hfp : ∀ x, 0 ≤ env.fpGb x) :
    ∀ (ids : List String) (s : Sys),
      (Sys.evictGo env req s ids).1.gpu.usageGb ≤ s.gpu.usageGb := by
  intro ids
  induction ids with
  | nil =>
    intro s
    simp only [Sys.evictGo]
    split <;> exact le_refl _
  | cons mid rest ih =>
    intro s
    simp only [Sys.evictGo]
    by_cases h : s.canLoad env req
    · rw [if_pos h]
    · rw [if_neg h]
      exact le_trans (ih _) (unregister_gpu_le env s mid hfp)

theorem touch_touch (i : ModelInfo) (t : ℚ) : (i.touch t).touch t = i.touch t := rfl

theorem updateAccess_lookup_touched (s : Sys) (id : String) (i : ModelInfo)
    (t : ℚ) (hl : s.lookupInfo id = some i) (hi : i.touch t = i) :
    (s.updateAccessTime id t).lookupInfo id = some i := by
  unfold Sys.updateAccessTime
  split
  · simp only [hl]
    rw [hi]
    exact lookupInfo_setInfo_self s id i
  · exact hl

theorem updateAccess_lookup_ne (s : Sys) (id j : String) (t : ℚ)
    (hne : j ≠ id) :
    (s.updateAccessTime id t).lookupInfo j = s.lookupInfo j := by
  unfold Sys.updateAccessTime
  split
  · cases hl : s.lookupInfo id with
    | none => simp only [hl]
    | some i =>
      simp only [hl]
      exact lookupInfo_setInfo_ne s id j _ hne
  · rfl

/-!
Lemmas about the admission and engine-load stages.
-/

theorem admitStep_tracked_sublist (env : Env) (s3 : Sys) (req : ℚ) :
    (admitStep env s3 req).1.tracked.Sublist s3.tracked := by
  unfold admitStep
  split
  · exact List.Sublist.refl _
  · exact evictGo_tracked_sublist env req _ s3

theorem admitStep_not_tracked (env : Env) (s3 : Sys) (req : ℚ) (x : String)
    (h : x ∉ s3.tracked) : x ∉ (admitStep env s3 req).1.tracked := by
  intro hmem
  exact h ((admitStep_tracked_sublist env s3 req).subset hmem)

theorem admitStep_lookup_engine_none (env : Env) (s3 : Sys) (req : ℚ)
    (x : String) (i : ModelInfo) (hl : s3.lookupInfo x = some i)
    (he : i.engine_instance = none) :
    (admitStep env s3 req).1.lookupInfo x = some i := by
  unfold admitStep
  split
  · exact hl
  · exact evictGo_lookup_engine_none env req _ s3 x i hl he

theorem admitStep_gpu_le (env : Env) (s3 : Sys) (req : ℚ)
    (hfp : ∀ x, 0 ≤ env.fpGb x) :
    (admitStep env s3 req).1.gpu.usageGb ≤ s3.gpu.usageGb := by
  unfold admitStep
  split
  · exact le_refl _
  · exact evictGo_gpu_le env req hfp _ s3

theorem admitStep_error_not_tracked (env : Env) (s3 : Sys) (req : ℚ)
    (e : VRAMErr) (herr : (admitStep env s3 req).2 = some e) (x : String)
    (i : ModelInfo) (hl : s3.lookupInfo x = some i) (hid : i.model_id = x) :
    x ∉ (admitStep env s3 req).1.tracked := by
  unfold admitStep at herr ⊢
  by_cases hcap : s3.canLoad env req
  · rw [if_pos hcap] at herr
    exact absurd herr (by simp)
  · rw [if_neg hcap] at herr ⊢
    by_cases hx : x ∈ s3.tracked
    · exact evictGo_error_not_tracked env req s3.evictionOrder s3 e herr x
        (mem_evictionOrder s3 x i hx hl hid)
    · exact evictGo_not_tracked_mono env req _ s3 x hx

theorem engineLoad_error_tracked (env : Env) (s4 : Sys) (id : String)
    (tt : TaskType) (t : ℚ) (info1 : ModelInfo) (e : LoadErr)
    (herr : (s4.engineLoad env id tt t info1).1 = .error e) :
    (s4.engineLoad env id tt t info1).2.tracked = s4.tracked := by
  unfold Sys.engineLoad at herr ⊢
  by_cases hv : tt = TaskType.video
  · rw [if_pos hv]
    exact setInfo_tracked _ _ _
  · rw [if_neg hv] at herr ⊢
    by_cases hok : env.loadOk id
    · simp only [hok, if_true] at herr
      exact absurd herr (by simp)
    · simp only [hok, Bool.false_eq_true, if_false]
      exact setInfo_tracked _ _ _

theorem engineLoad_loadfail_state (env : Env) (s4 : Sys) (id : String)
    (tt : TaskType) (t : ℚ) (info1 : ModelInfo)
    (herr : (s4.engineLoad env id tt t info1).1 = .error (.loadError id) ∨
            (s4.engineLoad env id tt t info1).1 = .error .notImplemented) :
    ((s4.engineLoad env id tt t info1).2.lookupInfo id).map ModelInfo.state =
      some ModelState.failed := by
  unfold Sys.engineLoad at herr ⊢
  by_cases hv : tt = TaskType.video
  · rw [if_pos hv]
    rw [lookupInfo_setInfo_self]
    rfl
  · rw [if_neg hv] at herr ⊢
    by_cases hok : env.loadOk id
    · simp only [hok, if_true] at herr
      rcases herr with h | h <;> exact absurd h (by simp)
    · simp only [hok, Bool.false_eq_true, if_false]
      rw [lookupInfo_setInfo_self]
      rfl

theorem finishLoad_error_effects (env : Env) (s2 : Sys) (id : String)
    (tt : TaskType) (t : ℚ) (dp : String) :
    (∀ e, (s2.finishLoad env id tt t dp).1 = .error e →
      (s2.finishLoad env id tt t dp).2.tracked.Sublist s2.tracked ∧
      (id ∉ s2.tracked → id ∉ (s2.finishLoad env id tt t dp).2.tracked)) ∧
    (((s2.finishLoad env id tt t dp).1 = .error (.loadError id) ∨
      (s2.finishLoad env id tt t dp).1 = .error .notImplemented) →
      ((s2.finishLoad env id tt t dp).2.lookupInfo id).map ModelInfo.state =
        some ModelState.failed) := by
  have htr3 : (s2.setInfo id (onDiskInfo s2 id tt t dp)).tracked = s2.tracked :=
    setInfo_tracked _ _ _
  unfold Sys.finishLoad
  cases hev : (admitStep env (s2.setInfo id (onDiskInfo s2 id tt t dp)) 2).2 with
  | some e =>
    simp only [hev]
    constructor
    · intro e1 _
      constructor
      · exact htr3 ▸ admitStep_tracked_sublist env _ 2
      · intro hid
        exact admitStep_not_tracked env _ 2 id (htr3 ▸ hid)
    · intro hor
      rcases hor with h | h <;> exact absurd h (by simp)
  | none =>
    simp only [hev]
    constructor
    · intro e1 herr
      have htr := engineLoad_error_tracked env _ id tt t _ e1 herr
      constructor
      · rw [htr]
        exact htr3 ▸ admitStep_tracked_sublist env _ 2
      · intro hid
        rw [htr]
        exact admitStep_not_tracked env _ 2 id (htr3 ▸ hid)
    · intro hor
      exact engineLoad_loadfail_state env _ id tt t _ hor

theorem loadModelSlow_error_effects (env : Env) (s : Sys) (id : String)
    (tt : TaskType) (t : ℚ) :
    (∀ e, (s.loadModelSlow env id tt t).1 = .error e →
      (s.loadModelSlow env id tt t).2.tracked.Sublist s.tracked ∧
      (id ∉ s.tracked → id ∉ (s.loadModelSlow env id tt t).2.tracked)) ∧
    (((s.loadModelSlow env id tt t).1 = .error (.loadError id) ∨
      (s.loadModelSlow env id tt t).1 = .error .notImplemented) →
      ((s.loadModelSlow env id tt t).2.lookupInfo id).map ModelInfo.state =
        some ModelState.failed) := by
  unfold Sys.loadModelSlow
  rcases hdl : DM.download env (s.setInfo id (freshInfo id tt t)).dm id with ⟨r, dm2⟩
  simp only [hdl]
  cases r with
  | error e1 =>
    constructor
    · intro e2 _
      constructor
      · rw [tracked_withDm, setInfo_tracked]
      · intro hid
        rw [tracked_withDm, setInfo_tracked]
        exact hid
    · intro hor
      have hsh : e1 = .downloadError id :=
        download_error_shape env _ id e1 (by rw [hdl])
      rcases hor with h | h <;>
        (simp only [Except.error.injEq] at h; rw [hsh] at h; exact absurd h (by simp))
  | ok dp =>
    have heff := finishLoad_error_effects env
      { s.setInfo id (freshInfo id tt t) with dm := dm2 } id tt t dp
    constructor
    · intro e2 herr
      have h1 := (heff.1 e2 herr)
      constructor
      · have := h1.1
        rw [tracked_withDm, setInfo_tracked] at this
        exact this
      · intro hid
        apply h1.2
        rw [tracked_withDm, setInfo_tracked]
        exact hid
    · exact heff.2

theorem engineLoad_no_vram (env : Env) (s4 : Sys) (id : String)
    (tt : TaskType) (t : ℚ) (info1 : ModelInfo) (r a : ℚ) :
    (s4.engineLoad env id tt t info1).1 ≠ .error (.vramExhausted r a) := by
  unfold Sys.engineLoad
  by_cases hv : tt = TaskType.video
  · rw [if_pos hv]
    simp
  · rw [if_neg hv]
    by_cases hok : env.loadOk id
    · simp [hok]
    · simp [hok]

theorem finishLoad_vram_error (env : Env) (s2 : Sys) (id : String)
    (tt : TaskType) (t : ℚ) (dp : String) (r a : ℚ)
    (he : (onDiskInfo s2 id tt t dp).engine_instance = none)
    (hid : (onDiskInfo s2 id tt t dp).model_id = id)
    (herr : (s2.finishLoad env id tt t dp).1 = .error (.vramExhausted r a)) :
    (s2.finishLoad env id tt t dp).2.lookupInfo id =
      some (onDiskInfo s2 id tt t dp) ∧
    id ∉ (s2.finishLoad env id tt t dp).2.tracked ∧
    ((∀ x, 0 ≤ env.fpGb x) →
      (s2.finishLoad env id tt t dp).2.gpu.usageGb ≤ s2.gpu.usageGb) := by
  have hl3 : (s2.setInfo id (onDiskInfo s2 id tt t dp)).lookupInfo id =
      some (onDiskInfo s2 id tt t dp) := lookupInfo_setInfo_self _ _ _
  unfold Sys.finishLoad at herr ⊢
  cases hev : (admitStep env (s2.setInfo id (onDiskInfo s2 id tt t dp)) 2).2 with
  | none =>
    simp only [hev] at herr
    exact absurd herr (engineLoad_no_vram env _ id tt t _ r a)
  | some e =>
    simp only [hev]
    refine ⟨?_, ?_, ?_⟩
    · exact admitStep_lookup_engine_none env _ 2 id _ hl3 he
    · exact admitStep_error_not_tracked env _ 2 e hev id _ hl3 hid
    · intro hfp
      have h1 := admitStep_gpu_le env (s2.setInfo id (onDiskInfo s2 id tt t dp)) 2 hfp
      rw [setInfo_gpu] at h1
      exact h1

theorem loadModelSlow_vram_error (env : Env) (s : Sys) (id : String)
    (tt : TaskType) (t : ℚ) (r a : ℚ)
    (herr : (s.loadModelSlow env id tt t).1 = .error (.vramExhausted r a)) :
    (s.loadModelSlow env id tt t).2.lookupInfo id =
      some { model_id := id, task_type := tt, state := ModelState.onDisk,
             vram_mb := 0, last_used := t,
             disk_path := some (modelDiskPath id), engine_instance := none } ∧
    id ∉ (s.loadModelSlow env id tt t).2.tracked ∧
    ((∀ x, 0 ≤ env.fpGb x) →
      (s.loadModelSlow env id tt t).2.gpu.usageGb ≤ s.gpu.usageGb) := by
  unfold Sys.loadModelSlow at herr ⊢
  rcases hdl : DM.download env (s.setInfo id (freshInfo id tt t)).dm id with ⟨dres1, dm2⟩
  simp only [hdl] at herr ⊢
  cases dres1 with
  | error e1 =>
    have hsh : e1 = .downloadError id :=
      download_error_shape env _ id e1 (by rw [hdl])
    simp only at herr
    rw [hsh] at herr
    exact absurd herr (by simp)
  | ok dp =>
    have hdp : dp = modelDiskPath id :=
      download_ok_shape env _ id dp (by rw [hdl])
    have hl2 : Sys.lookupInfo
        { s.setInfo id (freshInfo id tt t) with dm := dm2 } id =
        some (freshInfo id tt t) := by
      rw [lookup_withDm]
      exact lookupInfo_setInfo_self _ _ _
    have hodi : onDiskInfo { s.setInfo id (freshInfo id tt t) with dm := dm2 }
        id tt t dp =
        { model_id := id, task_type := tt, state := ModelState.onDisk,
          vram_mb := 0, last_used := t,
          disk_path := some (modelDiskPath id), engine_instance := none } := by
      unfold onDiskInfo
      rw [hl2, Option.getD_some, hdp]
      rfl
    have hv := finishLoad_vram_error env
      { s.setInfo id (freshInfo id tt t) with dm := dm2 } id tt t dp r a
      (by rw [hodi]) (by rw [hodi]) herr
    refine ⟨?_, hv.2.1, ?_⟩
    · rw [hv.1, hodi]
    · intro hfp
      have h1 := hv.2.2 hfp
      rw [gpu_withDm, setInfo_gpu] at h1
      exact h1

/-!
Claim theorems.
-/

attribute [local semireducible] Rat.mul Rat.add Rat.sub Rat.inv

/-- C1: the claim says eviction transitions the evicted record from LOADED to
ON_DISK and leaves its engine_handle absent.  Running the code: load m1
(6 GB), then load m2, whose admission evicts m1.  Afterwards m1 is indeed no
longer tracked by the Memory Budget Tracker, but its registry record still
has state LOADED and still carries the engine handle (whose internal loaded
flag is now false): unregister_model never updates the record's state or
clears engine_instance. -/
theorem C1_eviction_leaves_record_loaded_with_handle :
    "m1" ∉ sB.tracked ∧
    (sB.lookupInfo "m1").map ModelInfo.state = some ModelState.loaded ∧
    (sB.lookupInfo "m1").map ModelInfo.state ≠ some ModelState.onDisk ∧
    ((sB.lookupInfo "m1").bind ModelInfo.engine_instance).isSome = true := by
  decide

/-- C2 counterexample: a load request for a video model does NOT fail before
the artifact fetch: starting from an empty state, load_model("vid/model",
VIDEO) performs one physical transfer (the snapshot lands in the disk cache)
and only then fails with VideoEngine.load's NotImplementedError. -/
theorem C2_video_request_downloads_before_failing :
    (s0.loadModel env1 "vid/model" TaskType.video false 1).1 =
      .error .notImplemented ∧
    s0.dm.transfers = 0 ∧
    (s0.loadModel env1 "vid/model" TaskType.video false 1).2.dm.transfers = 1 ∧
    (s0.loadModel env1 "vid/model" TaskType.video false 1).2.dm.cache =
      [safeName "vid/model"] := by
  decide

/-- C3 counterexample: the claim says status_all() is empty after purge_all()
regardless of what is cached on disk.  With two snapshot directories in the
disk cache, purge_all() clears the registry and the tracker, yet
status_all() still reports both directories as ON_DISK entries. -/
theorem C3_status_after_purge_shows_disk_cache :
    (sC3.purgeAll env1).getAllModelStatus =
      [{ model_id := "org/model", state := ModelState.onDisk,
         path := some "/app/models/org--model" },
       { model_id := "m1", state := ModelState.onDisk,
         path := some "/app/models/m1" }] ∧
    (sC3.purgeAll env1).getAllModelStatus ≠ [] := by
  decide

/-- C3 (amended): after purge_all() the registry and the Memory Budget
Tracker's tracked set are empty, and status_all() returns exactly the
disk-cache entries (state ON_DISK); it is empty when no model is cached on
disk. -/
theorem C3_amended_purge_clears_registry_and_tracker (env : Env) (s : Sys) :
    (s.purgeAll env).registry = [] ∧
    (s.purgeAll env).tracked = [] ∧
    (s.purgeAll env).getAllModelStatus = (s.dm).listCachedModels ∧
    (s.dm.cache = [] → (s.purgeAll env).getAllModelStatus = []) := by
  have htr : (s.purgeAll env).tracked = [] := by
    show (Sys.vramPurgeAll env s).tracked = []
    exact evictIds_tracked_empty env s.tracked s (fun x hx => hx)
  have hdm : (s.purgeAll env).dm = s.dm := by
    show (Sys.vramPurgeAll env s).dm = s.dm
    exact evictIds_dm env s.tracked s
  have hreg : (s.purgeAll env).registry = [] := rfl
  have hstat : (s.purgeAll env).getAllModelStatus = (s.dm).listCachedModels := by
    unfold Sys.getAllModelStatus
    rw [hreg, hdm]
    simp
  refine ⟨hreg, htr, hstat, ?_⟩
  intro hc
  rw [hstat]
  unfold DM.listCachedModels
  rw [hc]
  rfl

/-- C3 amended witness at a state with one loaded model and two cached
directories. -/
theorem C3_amended_witness :
    (sC3.purgeAll env1).registry = [] ∧ (sC3.purgeAll env1).tracked = [] ∧
    (sC3.purgeAll env1).getAllModelStatus = (sC3.dm).listCachedModels := by
  have h := C3_amended_purge_clears_registry_and_tracker env1 sC3
  exact ⟨h.1, h.2.1, h.2.2.1⟩

/-- C4 counterexample: ties on last_used are NOT broken by model identifier.
With "b" registered before "a", both with last_used 100, and capacity that
one eviction satisfies, evict_lru releases "b" (the first registered), not
"a" (the smaller identifier): the survivor is "a", where the claim predicts
"b". -/
theorem C4_tie_broken_by_insertion_not_identifier :
    (infoT "a").last_used = (infoT "b").last_used ∧
    (s4.evictLru env4 2).2 = none ∧
    (s4.evictLru env4 2).1.tracked = ["a"] ∧
    "b" ∉ (s4.evictLru env4 2).1.tracked := by
  decide

/-- C4 (amended): evict_to_fit releases tracked models following the stable
sort of the tracker's records by last_used — non-decreasing last_used, ties
kept in registration order — and stops as soon as can_admit holds: the
state after evict_to_fit is the fold of release over a prefix of that order,
every proper sub-prefix of which still fails can_admit, and success holds
iff can_admit holds at the final state.  In the A/B scenario (A last_used
100 and 6 GB, B last_used 200 and 1 GB, request only A's release can
satisfy) A is evicted and B is not. -/
theorem C4_amended_lru_eviction_order (env : Env) (s : Sys) (req : ℚ) :
    (∃ k, k ≤ s.evictionOrder.length ∧
      (s.evictLru env req).1 = evictIds env s (s.evictionOrder.take k) ∧
      (∀ j, j < k →
        (evictIds env s (s.evictionOrder.take j)).canLoad env req = false) ∧
      ((s.evictLru env req).2 = none ↔
        (s.evictLru env req).1.canLoad env req = true)) ∧
    ((s.trackedInfos).insertionSort byLastUsed).Pairwise
      (fun a b => a.last_used ≤ b.last_used) ∧
    ((sAB.evictLru envAB 2).2 = none ∧
      (sAB.evictLru envAB 2).1.tracked = ["B"]) := by
  refine ⟨?_, evictionOrder_sorted s, by decide⟩
  rcases evictGo_spec env req s.evictionOrder s with ⟨k, hk, hst, hstop, hiff, _⟩
  exact ⟨k, hk, hst, hstop, hiff⟩

/-- C4 amended witness: the A/B scenario, through the theorem. -/
theorem C4_amended_witness :
    (sAB.evictLru envAB 2).2 = none ∧
    (sAB.evictLru envAB 2).1.tracked = ["B"] :=
  (C4_amended_lru_eviction_order envAB sAB 2).2.2

/-- C5: evict_to_fit raises CapacityError exactly when releasing every
tracked model still cannot admit the request, and the error's available
value is the effective limit minus the usage left after releasing
everything, clamped at 0 — hence never negative. -/
theorem C5_capacity_error_iff_all_evictions_insufficient (env : Env) (s : Sys)
    (req : ℚ) (hfp : ∀ x, 0 ≤ env.fpGb x) :
    ((s.evictLru env req).2.isSome = true ↔
      (evictIds env s s.evictionOrder).canLoad env req = false) ∧
    ∀ e, (s.evictLru env req).2 = some e →
      e.availableGb =
        max 0 (env.effectiveLimit - (evictIds env s s.evictionOrder).gpu.usageGb) ∧
      0 ≤ e.availableGb := by
  rcases evictGo_spec env req s.evictionOrder s with ⟨k, hk, hst, hstop, hiff, herrk⟩
  have hLru2 : (s.evictLru env req).2 = (Sys.evictGo env req s s.evictionOrder).2 := rfl
  have hfull : evictIds env s s.evictionOrder =
      evictIds env (evictIds env s (s.evictionOrder.take k)) (s.evictionOrder.drop k) := by
    rw [← evictIds_append, List.take_append_drop]
  constructor
  · constructor
    · intro hsome
      rcases Option.isSome_iff_exists.mp hsome with ⟨e, he⟩
      rw [hLru2] at he
      have hkl : k = s.evictionOrder.length := herrk (by rw [he]; simp)
      have h1 : (Sys.evictGo env req s s.evictionOrder).1 =
          evictIds env s s.evictionOrder := by
        rw [hst, hkl, List.take_length]
      have h2 : (Sys.evictGo env req s s.evictionOrder).1.canLoad env req ≠ true := by
        intro hcl
        have hnone := hiff.mpr hcl
        rw [he] at hnone
        exact Option.noConfusion hnone
      rw [h1] at h2
      exact Bool.not_eq_true _ ▸ (Bool.eq_false_iff.mpr h2)
    · intro hfalse
      by_contra hns
      have hnone : (Sys.evictGo env req s s.evictionOrder).2 = none := by
        rw [← hLru2]
        cases ho : (s.evictLru env req).2 with
        | none => rfl
        | some e =>
          rw [ho] at hns
          simp at hns
      have hcl := hiff.mp hnone
      rw [hst] at hcl
      have husage : (evictIds env s s.evictionOrder).gpu.usageGb ≤
          (evictIds env s (s.evictionOrder.take k)).gpu.usageGb := by
        rw [hfull]
        exact evictIds_gpu_le env hfp _ _
      have hclfull : (evictIds env s s.evictionOrder).canLoad env req = true := by
        unfold Sys.canLoad at hcl ⊢
        simp only [decide_eq_true_eq] at hcl ⊢
        linarith
      rw [hfalse] at hclfull
      exact Bool.noConfusion hclfull
  · intro e he
    rw [hLru2] at he
    have hval := evictGo_error_val env req s.evictionOrder s e he
    have hkl : k = s.evictionOrder.length := herrk (by rw [he]; simp)
    have h1 : (Sys.evictGo env req s s.evictionOrder).1 =
        evictIds env s s.evictionOrder := by
      rw [hst, hkl, List.take_length]
    rw [h1] at hval
    constructor
    · rw [hval]
    · rw [hval]
      exact le_max_left 0 _

/-- C5 witness: requesting 100 GB from the A/B state exhausts capacity even
after evicting everything, so evict_to_fit raises. -/
theorem C5_witness : (sAB.evictLru envAB 100).2.isSome = true := by
  have hfp : ∀ x, 0 ≤ envAB.fpGb x := by
    intro x
    unfold envAB
    dsimp only
    split <;> norm_num
  exact (C5_capacity_error_iff_all_evictions_insufficient envAB sAB 100 hfp).1.mpr
    (by decide)

/-- C10: fetch_model only drives the download manager; the registry, the
tracker's set of loaded models and the device state are untouched whether
the fetch succeeds or fails. -/
theorem C10_fetch_model_frame (env : Env) (s : Sys) (id : String) :
    (s.fetchModel env id).2.registry = s.registry ∧
    (s.fetchModel env id).2.tracked = s.tracked ∧
    (s.fetchModel env id).2.gpu = s.gpu :=
  ⟨rfl, rfl, rfl⟩

/-- C8: the fast path.  When a record exists, is LOADED and force_reload is
false, request_load refreshes the record's last_used (to the current clock
reading) and returns that touched record; every other registry record, the
tracker's key list, the download-manager state (no fetch) and the device
memory (no eviction, no load) are unchanged. -/
theorem C8_fast_path_no_io (env : Env) (s : Sys) (id : String) (tt : TaskType)
    (t : ℚ) (ex : ModelInfo) (hex : s.lookupInfo id = some ex)
    (hst : ex.state = ModelState.loaded) :
    (s.loadModel env id tt false t).1 = .ok (ex.touch t) ∧
    (s.loadModel env id tt false t).2.lookupInfo id = some (ex.touch t) ∧
    (∀ j, j ≠ id → (s.loadModel env id tt false t).2.lookupInfo j = s.lookupInfo j) ∧
    (s.loadModel env id tt false t).2.tracked = s.tracked ∧
    (s.loadModel env id tt false t).2.dm = s.dm ∧
    (s.loadModel env id tt false t).2.gpu = s.gpu := by
  have hred : s.loadModel env id tt false t =
      (Except.ok (ex.touch t), ((s.setInfo id (ex.touch t)).updateAccessTime id t)) := by
    unfold Sys.loadModel
    simp only [hex]
    rw [if_pos ⟨hst, trivial⟩]
  rw [hred]
  refine ⟨rfl, ?_, ?_, ?_, ?_, ?_⟩
  · exact updateAccess_lookup_touched _ id (ex.touch t) t
      (lookupInfo_setInfo_self s id _) (touch_touch ex t)
  · intro j hne
    rw [updateAccess_lookup_ne _ id j t hne, lookupInfo_setInfo_ne s id j _ hne]
  · rw [updateAccess_tracked, setInfo_tracked]
  · rw [updateAccess_dm, setInfo_dm]
  · rw [updateAccess_gpu, setInfo_gpu]

/-- C8 witness: a fast-path request for the loaded m1 leaves the tracker,
download manager and device state untouched. -/
theorem C8_witness :
    (sA.loadModel env1 "m1" TaskType.text false 5).2.tracked = sA.tracked ∧
    (sA.loadModel env1 "m1" TaskType.text false 5).2.dm = sA.dm ∧
    (sA.loadModel env1 "m1" TaskType.text false 5).2.gpu = sA.gpu := by
  have hex : sA.lookupInfo "m1" = some
      { model_id := "m1", task_type := TaskType.text, state := ModelState.loaded,
        vram_mb := 1000, last_used := 1, disk_path := some "/app/models/m1",
        engine_instance := some ⟨TaskType.text, "m1", true⟩ } := by decide
  have h := C8_fast_path_no_io env1 sA "m1" TaskType.text 5 _ hex rfl
  exact ⟨h.2.2.2.1, h.2.2.2.2.1, h.2.2.2.2.2⟩

/-- C2 (amended): a request for a video model whose identifier is new does
fail — but only at the load step, after the artifact fetch has been
performed: one physical transfer runs, the snapshot lands in the disk
cache, and the record is left FAILED with the NotImplementedError of
VideoEngine.load propagated. -/
theorem C2_amended_video_fails_after_fetch (env : Env) (s : Sys) (id : String)
    (t : ℚ) (hnone : s.lookupInfo id = none) (hnc : s.dm.isCached id = false)
    (hok : env.downloadOk id = true) (hcap : s.canLoad env 2 = true) :
    (s.loadModel env id TaskType.video false t).1 = .error .notImplemented ∧
    (s.loadModel env id TaskType.video false t).2.dm.transfers = s.dm.transfers + 1 ∧
    (s.loadModel env id TaskType.video false t).2.dm.cache = s.dm.cache ++ [safeName id] ∧
    ((s.loadModel env id TaskType.video false t).2.lookupInfo id).map ModelInfo.state =
      some ModelState.failed := by
  have hdl : DM.download env (s.setInfo id (freshInfo id TaskType.video t)).dm id =
      (.ok (modelDiskPath id),
        { cache := s.dm.cache ++ [safeName id], transfers := s.dm.transfers + 1 }) := by
    rw [setInfo_dm]
    unfold DM.download
    rw [if_neg (by rw [hnc]; exact Bool.false_ne_true)]
    rw [if_pos hok]
  have hmain : s.loadModel env id TaskType.video false t =
      s.loadModelSlow env id TaskType.video t := by
    unfold Sys.loadModel
    simp only [hnone]
  rw [hmain]
  unfold Sys.loadModelSlow Sys.finishLoad admitStep onDiskInfo Sys.engineLoad
  simp only [hdl, lookup_withDm, lookupInfo_setInfo_self, Option.getD_some,
    canLoad_setInfo, canLoad_withDm, hcap, if_true, reduceIte]
  refine ⟨trivial, ?_, ?_, ?_⟩
  · simp [setInfo_dm]
  · simp [setInfo_dm]
  · simp [lookupInfo_setInfo_self]

/-- C2 amended witness: the concrete video request from the empty state. -/
theorem C2_amended_witness :
    (s0.loadModel env1 "vid/model" TaskType.video false 1).1 =
      .error .notImplemented ∧
    (s0.loadModel env1 "vid/model" TaskType.video false 1).2.dm.transfers =
      s0.dm.transfers + 1 := by
  have h := C2_amended_video_fails_after_fetch env1 s0 "vid/model" 1
    (by decide) (by decide) (by decide) (by decide)
  exact ⟨h.1, h.2.1⟩

/-- C7: force-reloading a LOADED record first releases it from the tracker;
on any failure of the subsequent re-load attempt the identifier stays out of
the tracked set (the old footprint remains released), and when the engine
load itself fails the record ends FAILED — it is never left LOADED. -/
theorem C7_force_reload_releases_before_reload (env : Env) (s : Sys)
    (id : String) (tt : TaskType) (t : ℚ) (ex : ModelInfo)
    (hex : s.lookupInfo id = some ex) (hst : ex.state = ModelState.loaded) :
    (∀ e, (s.loadModel env id tt true t).1 = .error e →
      id ∉ (s.loadModel env id tt true t).2.tracked) ∧
    (((s.loadModel env id tt true t).1 = .error (.loadError id) ∨
      (s.loadModel env id tt true t).1 = .error .notImplemented) →
      ((s.loadModel env id tt true t).2.lookupInfo id).map ModelInfo.state =
        some ModelState.failed) := by
  have hred : s.loadModel env id tt true t =
      (s.unregisterModel env id).loadModelSlow env id tt t := by
    unfold Sys.loadModel
    simp only [hex]
    rw [if_neg (fun hand => Bool.noConfusion hand.2)]
    rw [if_pos ⟨hst, trivial⟩]
  rw [hred]
  have heff := loadModelSlow_error_effects env (s.unregisterModel env id) id tt t
  refine ⟨?_, heff.2⟩
  intro e herr
  exact (heff.1 e herr).2 (unregister_not_tracked_self env s id)

/-- C7 witness: force-reloading the loaded m1 with a failing engine load
leaves m1 untracked and FAILED. -/
theorem C7_witness :
    "m1" ∉ (sA.loadModel env1bad "m1" TaskType.text true 7).2.tracked ∧
    ((sA.loadModel env1bad "m1" TaskType.text true 7).2.lookupInfo "m1").map
      ModelInfo.state = some ModelState.failed := by
  have hex : sA.lookupInfo "m1" = some
      { model_id := "m1", task_type := TaskType.text, state := ModelState.loaded,
        vram_mb := 1000, last_used := 1, disk_path := some "/app/models/m1",
        engine_instance := some ⟨TaskType.text, "m1", true⟩ } := by decide
  have h := C7_force_reload_releases_before_reload env1bad sA "m1"
    TaskType.text 7 _ hex rfl
  exact ⟨h.1 (.loadError "m1") (by decide), h.2 (Or.inl (by decide))⟩

/-- C6: when request_load fails with CapacityError, the requesting record is
left ON_DISK with its disk location set and footprint 0, carries no engine
handle and is not tracked (no partial load); the tracker's key list is a
sublist of what it was (evictions persist, nothing is re-registered), and —
for nonnegative footprints — device usage has not grown. -/
theorem C6_capacity_error_leaves_on_disk_record (env : Env) (s : Sys)
    (id : String) (tt : TaskType) (force : Bool) (t : ℚ) (r a : ℚ)
    (herr : (s.loadModel env id tt force t).1 = .error (.vramExhausted r a)) :
    (s.loadModel env id tt force t).2.lookupInfo id =
      some { model_id := id, task_type := tt, state := ModelState.onDisk,
             vram_mb := 0, last_used := t,
             disk_path := some (modelDiskPath id), engine_instance := none } ∧
    id ∉ (s.loadModel env id tt force t).2.tracked ∧
    (s.loadModel env id tt force t).2.tracked.Sublist s.tracked ∧
    ((∀ x, 0 ≤ env.fpGb x) →
      (s.loadModel env id tt force t).2.gpu.usageGb ≤ s.gpu.usageGb) := by
  cases hex : s.lookupInfo id with
  | none =>
    have hred : s.loadModel env id tt force t = s.loadModelSlow env id tt t := by
      unfold Sys.loadModel
      simp only [hex]
    rw [hred] at herr ⊢
    have hv := loadModelSlow_vram_error env s id tt t r a herr
    have heff := (loadModelSlow_error_effects env s id tt t).1 _ herr
    exact ⟨hv.1, hv.2.1, heff.1, hv.2.2⟩
  | some ex =>
    by_cases hc1 : ex.state = ModelState.loaded ∧ force = false
    · have hok : (s.loadModel env id tt force t).1 = .ok (ex.touch t) := by
        unfold Sys.loadModel
        simp only [hex]
        rw [if_pos hc1]
      rw [hok] at herr
      exact absurd herr (by simp)
    · by_cases hc2 : ex.state = ModelState.loaded ∧ force = true
      · have hred : s.loadModel env id tt force t =
            (s.unregisterModel env id).loadModelSlow env id tt t := by
          unfold Sys.loadModel
          simp only [hex]
          rw [if_neg hc1, if_pos hc2]
        rw [hred] at herr ⊢
        have hv := loadModelSlow_vram_error env _ id tt t r a herr
        have heff := (loadModelSlow_error_effects env _ id tt t).1 _ herr
        refine ⟨hv.1, hv.2.1, ?_, ?_⟩
        · exact heff.1.trans (unregister_tracked_sublist env s id)
        · intro hfp
          exact le_trans (hv.2.2 hfp) (unregister_gpu_le env s id hfp)
      · have hred : s.loadModel env id tt force t = s.loadModelSlow env id tt t := by
          unfold Sys.loadModel
          simp only [hex]
          rw [if_neg hc1, if_neg hc2]
        rw [hred] at herr ⊢
        have hv := loadModelSlow_vram_error env s id tt t r a herr
        have heff := (loadModelSlow_error_effects env s id tt t).1 _ herr
        exact ⟨hv.1, hv.2.1, heff.1, hv.2.2⟩

/-- C6 witness: on a 1 GB device the 2 GB estimate can never be admitted;
the request fails with CapacityError and m1 is left ON_DISK, untracked. -/
theorem C6_witness :
    (s0.loadModel envTiny "m1" TaskType.text false 1).2.lookupInfo "m1" =
      some { model_id := "m1", task_type := TaskType.text,
             state := ModelState.onDisk, vram_mb := 0, last_used := 1,
             disk_path := some (modelDiskPath "m1"), engine_instance := none } ∧
    "m1" ∉ (s0.loadModel envTiny "m1" TaskType.text false 1).2.tracked := by
  have h := C6_capacity_error_leaves_on_disk_record envTiny s0 "m1"
    TaskType.text false 1 2 (9/10) (by decide)
  exact ⟨h.1, h.2.1⟩

set_option maxHeartbeats 1000000 in
set_option maxRecDepth 8192 in
theorem concStep_invA (o : Nat → Bool) (st : ConcState) (w : Bool)
    (h : InvA st) : InvA (concStep o st w) := by
  obtain ⟨cached, active, started, c0, c1⟩ := st
  unfold InvA at h ⊢
  cases w <;> cases c0 <;> cases c1 <;> cases cached <;> cases active <;>
    (simp only [concStep, phaseStep]
     split_ifs <;> (try (simp; done)) <;> (simp at h; try simp_all))

theorem concRun_invA_aux (o : Nat → Bool) :
    ∀ (sched : List Bool) (st : ConcState), InvA st →
      InvA (sched.foldl (concStep o) st) := by
  intro sched
  induction sched with
  | nil => intro st h; exact h
  | cons w rest ih =>
    intro st h
    exact ih _ (concStep_invA o st w h)

theorem concRun_invA (o : Nat → Bool) (sched : List Bool) :
    InvA (concRun o sched) := by
  unfold concRun
  apply concRun_invA_aux
  unfold InvA
  refine ⟨?_, ?_, ?_⟩ <;> simp

set_option maxHeartbeats 2000000 in
set_option maxRecDepth 8192 in
theorem concStep_invJ (st : ConcState) (w : Bool) (h : InvJ st) :
    InvJ (concStep (fun _ => true) st w) := by
  obtain ⟨cached, active, started, c0, c1⟩ := st
  unfold InvJ at h ⊢
  cases w <;> cases c0 <;> cases c1 <;> cases cached <;> cases active <;>
    (simp only [concStep, phaseStep]
     split_ifs <;> (try (simp; done)) <;> (try (simp_all; done)) <;>
       (try contradiction) <;> (simp at h ⊢ <;> (try omega) <;> (try contradiction)))

theorem concRun_invJ_aux :
    ∀ (sched : List Bool) (st : ConcState), InvJ st →
      InvJ (sched.foldl (concStep (fun _ => true)) st) := by
  intro sched
  induction sched with
  | nil => intro st h; exact h
  | cons w rest ih =>
    intro st h
    exact ih _ (concStep_invJ st w h)

theorem concRun_invJ (sched : List Bool) :
    InvJ (concRun (fun _ => true) sched) := by
  unfold concRun
  apply concRun_invJ_aux
  unfold InvJ
  refine ⟨?_, ?_, ?_, ?_, ?_, ?_, ?_, ?_, ?_, ?_, ?_⟩ <;> simp

/-- C9 counterexample: the callers need not observe the same outcome.  With
caller 0 starting the transfer, caller 1 joining as a waiter, and the single
transfer failing, caller 0 propagates DownloadError while caller 1 — woken
when the in-flight marker clears, returning the expected path without
re-checking — observes a location. -/
theorem C9_waiter_and_fetcher_observe_different_outcomes :
    (concRun (fun _ => false) [false, true, false, true]).started = 1 ∧
    (concRun (fun _ => false) [false, true, false, true]).c0 =
      CallerPhase.done DlResult.failed ∧
    (concRun (fun _ => false) [false, true, false, true]).c1 =
      CallerPhase.done (DlResult.ok (modelDiskPath "m")) := by
  decide

/-- C9 (amended): under every schedule and every pattern of transfer
outcomes, at most one caller is mid transfer at any point (the in-flight
marker collapses concurrent transfers into one); and when transfers succeed,
two concurrent callers that both complete trigger exactly one physical
transfer.  Callers do not, however, always observe the same final location
or the same failure. -/
theorem C9_amended_single_transfer_in_flight :
    (∀ (o : Nat → Bool) (sched : List Bool),
      ¬((concRun o sched).c0 = CallerPhase.transferring ∧
        (concRun o sched).c1 = CallerPhase.transferring)) ∧
    (∀ sched : List Bool, (concRun (fun _ => true) sched).bothDone →
      (concRun (fun _ => true) sched).started = 1) := by
  constructor
  · intro o sched
    exact (concRun_invA o sched).2.2
  · intro sched hdone
    rcases hdone with ⟨⟨r0, h0⟩, _⟩
    exact (concRun_invJ sched).2.2.2.2.2.2.1 r0 h0

/-- C9 amended witness: an interleaved schedule with a successful transfer,
both callers done, one transfer started. -/
theorem C9_amended_witness :
    (concRun (fun _ => true) [false, true, false, true]).started = 1 :=
  C9_amended_single_transfer_in_flight.2 [false, true, false, true]
    ⟨⟨DlResult.ok (modelDiskPath "m"), by decide⟩,
     ⟨DlResult.ok (modelDiskPath "m"), by decide⟩⟩

end BackendAI
